import Mathlib

/-!
Verification development for the pyroboplan core algorithms:
the damped nullspace-aware differential IK solver
(`src/pyroboplan/ik/differential_ik.py`), the nullspace component library
(`src/pyroboplan/ik/nullspace_components.py`), and the cubic direct-collocation
trajectory optimizer (`src/pyroboplan/trajectory/trajectory_optimization.py`).

The pinocchio kinematics/collision oracle and the numpy random source are
external collaborators; they enter the embedding as explicit data
(`IkContext.errAt`, `IkContext.jacAt`, `IkContext.collision`,
`IkContext.randomState`), exactly at the call boundaries where the Python code
calls into them.  Python floats are idealized as real numbers, and numpy
in-place array mutation (`q_cur += ...`) is modelled by explicitly tracking the
contents of the caller's `init_state` array (`SolveState.arr`) together with
whether the local `q_cur` still aliases it (`SolveState.aliased`): `+=`
mutates the shared buffer, whereas rebindings (`q_cur = ...`) break the alias.
-/

set_option maxHeartbeats 1000000

namespace PyRoboPlan

open Real Matrix

/-- A joint configuration: one real value per degree of freedom. -/
abbrev Config (n : ℕ) := Fin n → ℝ

/-- Euclidean norm of a vector, as computed by `np.linalg.norm`. -/
noncomputable def vnorm {k : ℕ} (v : Fin k → ℝ) : ℝ :=
  Real.sqrt (∑ i, v i ^ 2)

/-- The first three entries of a 6-vector (`error[:3]`, the translation part). -/
def errTrans (e : Fin 6 → ℝ) : Fin 3 → ℝ := fun i => e (Fin.castAdd 3 i)

/-- The last three entries of a 6-vector (`error[3:]`, the rotation part). -/
def errRot (e : Fin 6 → ℝ) : Fin 3 → ℝ := fun i => e (Fin.natAdd 3 i)

/-- Real-valued modulo with the convention of numpy's `%` operator for a
positive modulus: `realMod a m = a - m * ⌊a / m⌋`, which lies in `[0, m)`. -/
noncomputable def realMod (a m : ℝ) : ℝ := a - m * ⌊a / m⌋

/-- Componentwise wrap used by `DifferentialIk.solve`:
`(q + np.pi) % (2 * np.pi) - np.pi`. -/
noncomputable def wrapAngle (x : ℝ) : ℝ :=
  realMod (x + Real.pi) (2 * Real.pi) - Real.pi

theorem realMod_eq_fract (a m : ℝ) (hm : m ≠ 0) :
    realMod a m = m * Int.fract (a / m) := by
  unfold realMod Int.fract
  field_simp

theorem realMod_nonneg (a m : ℝ) (hm : 0 < m) : 0 ≤ realMod a m := by
  rw [realMod_eq_fract a m hm.ne']
  exact mul_nonneg hm.le (Int.fract_nonneg _)

theorem realMod_lt (a m : ℝ) (hm : 0 < m) : realMod a m < m := by
  rw [realMod_eq_fract a m hm.ne']
  calc m * Int.fract (a / m) < m * 1 :=
        (mul_lt_mul_left hm).mpr (Int.fract_lt_one _)
    _ = m := mul_one m

/-- The wrapped angle always lands in the half-open interval `[-π, π)`. -/
theorem wrapAngle_mem (x : ℝ) : -Real.pi ≤ wrapAngle x ∧ wrapAngle x < Real.pi := by
  have h2 : (0 : ℝ) < 2 * Real.pi := by positivity
  constructor
  · have := realMod_nonneg (x + Real.pi) (2 * Real.pi) h2
    unfold wrapAngle
    linarith
  · have := realMod_lt (x + Real.pi) (2 * Real.pi) h2
    unfold wrapAngle
    linarith

/-- Angles already in `[-π, π)` are fixed points of the wrap. -/
theorem wrapAngle_eq_self {x : ℝ} (h1 : -Real.pi ≤ x) (h2 : x < Real.pi) :
    wrapAngle x = x := by
  have hpi : (0 : ℝ) < 2 * Real.pi := by positivity
  have hfloor : ⌊(x + Real.pi) / (2 * Real.pi)⌋ = 0 := by
    rw [Int.floor_eq_zero_iff]
    constructor
    · exact div_nonneg (by linarith) hpi.le
    · rw [div_lt_one hpi]
      linarith
  unfold wrapAngle realMod
  rw [hfloor]
  push_cast
  ring

/-- Options for `DifferentialIk.solve`, mirroring `DifferentialIkOptions`. -/
structure DifferentialIkOptions where
  maxIters : ℕ
  maxRetries : ℕ
  maxTranslationError : ℝ
  maxRotationError : ℝ
  damping : ℝ
  minStepSize : ℝ
  maxStepSize : ℝ

/-- The model data and external-oracle functions consumed by one
`DifferentialIk.solve` call.  `errAt q` is the 6-vector
`-pinocchio.log(target_tform.actInv(FK(q)))` (the target pose is baked in),
`jacAt q` is `pinocchio.computeFrameJacobian` at `q`, `collision` is
`check_collisions_at_state` partially applied to the collision model when one
is attached (`true` means "in collision"), `randomState` is the stream of
successive `get_random_state` draws, and `nullspace` is the list of nullspace
component callables with the model argument already applied. -/
structure IkContext (n : ℕ) where
  lower : Config n
  upper : Config n
  errAt : Config n → Fin 6 → ℝ
  jacAt : Config n → Matrix (Fin 6) (Fin n) ℝ
  collision : Option (Config n → Bool)
  randomState : ℕ → Config n
  nullspace : List (Config n → Config n)

/-- The `check_within_limits` predicate:
`np.all(q >= lower) and np.all(q <= upper)`. -/
def withinLimits {n : ℕ} (c : IkContext n) (q : Config n) : Prop :=
  ∀ i, c.lower i ≤ q i ∧ q i ≤ c.upper i

/-- The collision gate of the solved branch: trivially satisfied when no
collision model is attached, otherwise requires `check_collisions_at_state`
to report no collision. -/
def collisionOk {n : ℕ} (c : IkContext n) (q : Config n) : Prop :=
  match c.collision with
  | none => True
  | some inCollision => inCollision q = false

/-- The damped pseudo-inverse system matrix
`jjt = J.dot(J.T) + damping**2 * np.eye(6)`. -/
noncomputable def dlsMatrix {n : ℕ} (J : Matrix (Fin 6) (Fin n) ℝ)
    (damping : ℝ) : Matrix (Fin 6) (Fin 6) ℝ :=
  J * J.transpose + damping ^ 2 • 1

/-- The adaptive step scale computed each stepping iteration:
`alpha = min_step_size + (1.0 - error_norm / initial_error_norm) *
(max_step_size - min_step_size)`. -/
noncomputable def alphaStep (minStepSize maxStepSize errorNorm initialErrorNorm : ℝ) : ℝ :=
  minStepSize + (1 - errorNorm / initialErrorNorm) * (maxStepSize - minStepSize)

/-- Python's `sum(...)` of the evaluated nullspace components at `q`. -/
def nullspaceSum {n : ℕ} (comps : List (Config n → Config n)) (q : Config n) :
    Config n :=
  (comps.map fun f => f q).sum

/-- The configuration increment applied by one gradient-descent step of
`DifferentialIk.solve`: without nullspace components it is
`alpha * J.T @ np.linalg.solve(jjt, error)`, and with components it is
`alpha * (J.T @ np.linalg.solve(jjt, error - J @ nullspace_term) + nullspace_term)`. -/
noncomputable def ikStep {n : ℕ} (J : Matrix (Fin 6) (Fin n) ℝ)
    (damping alpha : ℝ) (error : Fin 6 → ℝ)
    (comps : List (Config n → Config n)) (q : Config n) : Config n :=
  if comps.isEmpty then
    alpha • (J.transpose *ᵥ ((dlsMatrix J damping)⁻¹ *ᵥ error))
  else
    alpha • (J.transpose *ᵥ ((dlsMatrix J damping)⁻¹ *ᵥ
        (error - J *ᵥ nullspaceSum comps q)) + nullspaceSum comps q)

/-- The mutable state threaded through a `solve` call.  `qCur` is the Python
local `q_cur`; `initialErrorNorm` is the `initial_error_norm` local
(`none` models Python's `None`); `aliased` records whether `q_cur` still
refers to the caller's `init_state` array; `arr` is the current contents of
that array; `steps` counts executed gradient-descent updates; `randCount`
counts consumed `get_random_state` draws. -/
structure SolveState (n : ℕ) where
  qCur : Config n
  initialErrorNorm : Option ℝ
  aliased : Bool
  arr : Config n
  steps : ℕ
  randCount : ℕ

namespace DifferentialIk

open Classical in
/-- The inner `while n_iters < max_iters` loop of `DifferentialIk.solve`,
with the remaining iteration budget as fuel.  Returns the state at loop exit
together with the `solved` flag.  On numeric convergence the configuration is
wrapped (a rebinding, which breaks the `init_state` alias), checked against
joint limits and, when a collision model is attached, collisions; otherwise a
damped-least-squares step (`ikStep`) is added in place (`q_cur += ...`),
mutating the aliased array when one is still attached. -/
noncomputable def innerLoop {n : ℕ} (c : IkContext n)
    (opts : DifferentialIkOptions) :
    ℕ → SolveState n → SolveState n × Bool
  | 0, s => (s, false)
  | fuel + 1, s =>
    let error := c.errAt s.qCur
    if vnorm (errTrans error) < opts.maxTranslationError ∧
        vnorm (errRot error) < opts.maxRotationError then
      let qw : Config n := fun i => wrapAngle (s.qCur i)
      let ok : Bool :=
        if withinLimits c qw then
          match c.collision with
          | some inCollision => ! inCollision qw
          | none => true
        else false
      ({ s with qCur := qw, aliased := false }, ok)
    else
      let J := c.jacAt s.qCur
      let errorNorm := vnorm error
      let ien : ℝ :=
        match s.initialErrorNorm with
        | none => errorNorm
        | some v => if v = 0 then errorNorm else v
      let alpha := alphaStep opts.minStepSize opts.maxStepSize errorNorm ien
      let qNew := s.qCur + ikStep J opts.damping alpha error c.nullspace s.qCur
      innerLoop c opts fuel
        { qCur := qNew
          initialErrorNorm := some ien
          aliased := s.aliased
          arr := if s.aliased then qNew else s.arr
          steps := s.steps + 1
          randCount := s.randCount }

/-- The outer retry loop `while n_tries <= max_retries` of
`DifferentialIk.solve`, with the remaining attempt budget as fuel.  A solved
attempt returns its configuration immediately; a failed attempt rebinds
`q_cur` to a fresh random state (breaking the alias) and retries. -/
noncomputable def outerLoop {n : ℕ} (c : IkContext n)
    (opts : DifferentialIkOptions) :
    ℕ → SolveState n → Option (Config n) × SolveState n
  | 0, s => (none, s)
  | fuel + 1, s =>
    let r := innerLoop c opts opts.maxIters s
    if r.2 then (some r.1.qCur, r.1)
    else
      outerLoop c opts fuel
        { r.1 with
            qCur := c.randomState r.1.randCount
            aliased := false
            randCount := r.1.randCount + 1 }

/-- The whole `DifferentialIk.solve` call.  The first component of the result
is the Python return value (`q_cur` on success, `None` on failure); the second
component is the final solver state, whose `arr` field holds the contents of
the caller's `init_state` array after the call. -/
noncomputable def solve {n : ℕ} (c : IkContext n) (opts : DifferentialIkOptions)
    (initState : Option (Config n)) : Option (Config n) × SolveState n :=
  match initState with
  | some q =>
    outerLoop c opts (opts.maxRetries + 1)
      { qCur := q, initialErrorNorm := none, aliased := true, arr := q,
        steps := 0, randCount := 0 }
  | none =>
    outerLoop c opts (opts.maxRetries + 1)
      { qCur := c.randomState 0, initialErrorNorm := none, aliased := false,
        arr := c.randomState 0, steps := 0, randCount := 1 }

/-- Any state returned by the inner loop with the `solved` flag set carries a
configuration that was wrapped to `[-π, π)`, passed the joint-limit check and
passed the collision check. -/
theorem innerLoop_solved_spec {n : ℕ} (c : IkContext n)
    (opts : DifferentialIkOptions) :
    ∀ (fuel : ℕ) (s : SolveState n),
      (innerLoop c opts fuel s).2 = true →
      withinLimits c (innerLoop c opts fuel s).1.qCur ∧
        collisionOk c (innerLoop c opts fuel s).1.qCur ∧
        ∀ i, -Real.pi ≤ (innerLoop c opts fuel s).1.qCur i ∧
          (innerLoop c opts fuel s).1.qCur i < Real.pi := by
  intro fuel
  induction fuel with
  | zero =>
    intro s h
    simp [innerLoop] at h
  | succ fuel ih =>
    intro s h
    rw [innerLoop] at h ⊢
    by_cases hconv : vnorm (errTrans (c.errAt s.qCur)) < opts.maxTranslationError ∧
        vnorm (errRot (c.errAt s.qCur)) < opts.maxRotationError
    · rw [if_pos hconv] at h ⊢
      simp only at h ⊢
      by_cases hlim : withinLimits c (fun i => wrapAngle (s.qCur i))
      · refine ⟨hlim, ?_, fun i => wrapAngle_mem (s.qCur i)⟩
        unfold collisionOk
        cases hcol : c.collision with
        | none => trivial
        | some inCollision =>
          rw [if_pos hlim, hcol] at h
          simpa using h
      · rw [if_neg hlim] at h
        simp at h
    · rw [if_neg hconv] at h ⊢
      exact ih _ h

/-- The outer retry loop only ever returns a configuration that the inner
loop validated. -/
theorem outerLoop_some_spec {n : ℕ} (c : IkContext n)
    (opts : DifferentialIkOptions) :
    ∀ (fuel : ℕ) (s : SolveState n) (q : Config n),
      (outerLoop c opts fuel s).1 = some q →
      withinLimits c q ∧ collisionOk c q ∧
        ∀ i, -Real.pi ≤ q i ∧ q i < Real.pi := by
  intro fuel
  induction fuel with
  | zero =>
    intro s q h
    simp [outerLoop] at h
  | succ fuel ih =>
    intro s q h
    rw [outerLoop] at h
    by_cases hs : (innerLoop c opts opts.maxIters s).2 = true
    · rw [if_pos hs] at h
      simp only [Option.some.injEq] at h
      subst h
      exact innerLoop_solved_spec c opts opts.maxIters s hs
    · rw [if_neg (by simpa using hs)] at h
      exact ih _ _ h

/-- The property claimed of every `solve` result: failure (`None`), or a
configuration within joint limits that passed the attached collision check. -/
def validResult {n : ℕ} (c : IkContext n) : Option (Config n) → Prop
  | none => True
  | some q => withinLimits c q ∧ collisionOk c q

/-- Every returned configuration has all components in `[-π, π)`. -/
def wrappedResult {n : ℕ} : Option (Config n) → Prop
  | (none : Option (Config n)) => True
  | some q => ∀ i, -Real.pi ≤ q i ∧ q i < Real.pi

end DifferentialIk

/-- C1: every `DifferentialIk.solve` call returns either a configuration that
is within the model's joint limits and (when a collision model is attached)
collision-free, or the explicit failure value `None` once all attempts are
exhausted; no configuration violating limits or in collision is ever
returned. -/
theorem C1_solve_result_valid {n : ℕ} (c : IkContext n)
    (opts : DifferentialIkOptions) (initState : Option (Config n)) :
    DifferentialIk.validResult c (DifferentialIk.solve c opts initState).1 := by
  unfold DifferentialIk.solve
  cases initState with
  | some q =>
    cases hr : (DifferentialIk.outerLoop c opts (opts.maxRetries + 1)
        { qCur := q, initialErrorNorm := none, aliased := true, arr := q,
          steps := 0, randCount := 0 }).1 with
    | none => simp [hr, DifferentialIk.validResult]
    | some qs =>
      have := DifferentialIk.outerLoop_some_spec c opts _ _ _ hr
      simp only [hr, DifferentialIk.validResult]
      exact ⟨this.1, this.2.1⟩
  | none =>
    cases hr : (DifferentialIk.outerLoop c opts (opts.maxRetries + 1)
        { qCur := c.randomState 0, initialErrorNorm := none, aliased := false,
          arr := c.randomState 0, steps := 0, randCount := 1 }).1 with
    | none => simp [hr, DifferentialIk.validResult]
    | some qs =>
      have := DifferentialIk.outerLoop_some_spec c opts _ _ _ hr
      simp only [hr, DifferentialIk.validResult]
      exact ⟨this.1, this.2.1⟩

/-- C10: every configuration returned as a solution by `DifferentialIk.solve`
has each component in the half-open interval `[-π, π)`: the converged
candidate is wrapped componentwise via `((q + π) mod 2π) - π` before the
joint-limit and collision checks, and the wrapped configuration is what is
returned. -/
theorem C10_solve_result_wrapped {n : ℕ} (c : IkContext n)
    (opts : DifferentialIkOptions) (initState : Option (Config n)) :
    DifferentialIk.wrappedResult (DifferentialIk.solve c opts initState).1 := by
  unfold DifferentialIk.solve
  cases initState with
  | some q =>
    cases hr : (DifferentialIk.outerLoop c opts (opts.maxRetries + 1)
        { qCur := q, initialErrorNorm := none, aliased := true, arr := q,
          steps := 0, randCount := 0 }).1 with
    | none => simp [hr, DifferentialIk.wrappedResult]
    | some qs =>
      have := DifferentialIk.outerLoop_some_spec c opts _ _ _ hr
      simp only [hr, DifferentialIk.wrappedResult]
      exact this.2.2
  | none =>
    cases hr : (DifferentialIk.outerLoop c opts (opts.maxRetries + 1)
        { qCur := c.randomState 0, initialErrorNorm := none, aliased := false,
          arr := c.randomState 0, steps := 0, randCount := 1 }).1 with
    | none => simp [hr, DifferentialIk.wrappedResult]
    | some qs =>
      have := DifferentialIk.outerLoop_some_spec c opts _ _ _ hr
      simp only [hr, DifferentialIk.wrappedResult]
      exact this.2.2

/-- C2: with an empty `nullspace_components` list the per-iteration update of
`DifferentialIk.solve` is exactly `alpha` times the damped-least-squares
primary correction `Jᵀ (J Jᵀ + damping² I)⁻¹ e`; the code's expression
`Jᵀ (J Jᵀ + damping² I)⁻¹ (e - J v) + v` is algebraically equal to the primary
correction plus `v` projected through `(I - Jᵀ (J Jᵀ + damping² I)⁻¹ J)` for
every Jacobian `J`, error `e` and nullspace vector `v`; and with a non-empty
list the update is `alpha` times the sum of the primary correction and the
projected summed nullspace term. -/
theorem C2_ikStep_nullspace_projection {n : ℕ} (J : Matrix (Fin 6) (Fin n) ℝ)
    (damping alpha : ℝ) (error : Fin 6 → ℝ) (q : Config n)
    (f : Config n → Config n) (fs : List (Config n → Config n)) :
    ikStep J damping alpha error [] q =
      alpha • (J.transpose *ᵥ ((dlsMatrix J damping)⁻¹ *ᵥ error)) ∧
    (∀ v : Fin n → ℝ,
      J.transpose *ᵥ ((dlsMatrix J damping)⁻¹ *ᵥ (error - J *ᵥ v)) + v =
        J.transpose *ᵥ ((dlsMatrix J damping)⁻¹ *ᵥ error) +
          (1 - J.transpose * (dlsMatrix J damping)⁻¹ * J) *ᵥ v) ∧
    ikStep J damping alpha error (f :: fs) q =
      alpha • (J.transpose *ᵥ ((dlsMatrix J damping)⁻¹ *ᵥ error) +
        (1 - J.transpose * (dlsMatrix J damping)⁻¹ * J) *ᵥ
          nullspaceSum (f :: fs) q) := by
  have key : ∀ v : Fin n → ℝ,
      J.transpose *ᵥ ((dlsMatrix J damping)⁻¹ *ᵥ (error - J *ᵥ v)) + v =
        J.transpose *ᵥ ((dlsMatrix J damping)⁻¹ *ᵥ error) +
          (1 - J.transpose * (dlsMatrix J damping)⁻¹ * J) *ᵥ v := by
    intro v
    simp only [Matrix.mulVec_sub, Matrix.sub_mulVec, Matrix.one_mulVec,
      Matrix.mulVec_mulVec, Matrix.mul_assoc]
    abel
  refine ⟨by simp [ikStep], key, ?_⟩
  rw [ikStep]
  simp only [List.isEmpty_cons, if_false, Bool.false_eq_true]
  rw [key]

/-- Once `initial_error_norm` holds a nonzero value, no inner-loop iteration
ever overwrites it: the guard `if not initial_error_norm` only fires on
`None` or `0.0`. -/
theorem innerLoop_preserves_ien {n : ℕ} (c : IkContext n)
    (opts : DifferentialIkOptions) :
    ∀ (fuel : ℕ) (s : SolveState n) (v : ℝ),
      s.initialErrorNorm = some v → v ≠ 0 →
      ((DifferentialIk.innerLoop c opts fuel s).1).initialErrorNorm = some v := by
  intro fuel
  induction fuel with
  | zero =>
    intro s v hv hv0
    simpa [DifferentialIk.innerLoop] using hv
  | succ fuel ih =>
    intro s v hv hv0
    rw [DifferentialIk.innerLoop]
    by_cases hconv : vnorm (errTrans (c.errAt s.qCur)) < opts.maxTranslationError ∧
        vnorm (errRot (c.errAt s.qCur)) < opts.maxRotationError
    · rw [if_pos hconv]
      simpa using hv
    · rw [if_neg hconv]
      simp only
      apply ih
      · simp [hv, if_neg hv0]
      · exact hv0

/-- The retry loop never resets a recorded nonzero `initial_error_norm`:
the value captured in the first attempt is reused by every later attempt. -/
theorem outerLoop_preserves_ien {n : ℕ} (c : IkContext n)
    (opts : DifferentialIkOptions) :
    ∀ (fuel : ℕ) (s : SolveState n) (v : ℝ),
      s.initialErrorNorm = some v → v ≠ 0 →
      ((DifferentialIk.outerLoop c opts fuel s).2).initialErrorNorm = some v := by
  intro fuel
  induction fuel with
  | zero =>
    intro s v hv hv0
    simpa [DifferentialIk.outerLoop] using hv
  | succ fuel ih =>
    intro s v hv hv0
    rw [DifferentialIk.outerLoop]
    by_cases hs : (DifferentialIk.innerLoop c opts opts.maxIters s).2 = true
    · rw [if_pos hs]
      exact innerLoop_preserves_ien c opts _ _ _ hv hv0
    · rw [if_neg (by simpa using hs)]
      apply ih
      · simpa using innerLoop_preserves_ien c opts _ _ _ hv hv0
      · exact hv0

/-- C3 counterexample: the claim says the step scale shrinks as the error
norm approaches zero (alpha smaller when the ratio is smaller).  With
`min_step_size = 0.1`, `max_step_size = 0.5` and reference norm 1, the code's
`alphaStep` yields 0.1 at ratio 1 but 0.3 at ratio 1/2: alpha grows as the
ratio shrinks, refuting the claimed direction. -/
theorem C3_alpha_counterexample :
    alphaStep 0.1 0.5 1 1 < alphaStep 0.1 0.5 (1 / 2) 1 := by
  unfold alphaStep
  norm_num

/-- C3 amended: the step scale is the affine interpolation
`alpha = min_step_size + (1 - errorNorm / referenceNorm) * (max_step_size -
min_step_size)`, which equals `min_step_size` when the error norm equals the
reference norm, equals `max_step_size` when the error norm reaches zero, and
is antitone in the error norm (steps grow, not shrink, as the solver
approaches convergence); moreover the reference norm is recorded at the first
stepping iteration of the first attempt and, once nonzero, is never
re-recorded at later attempts of the retry loop. -/
theorem C3_alpha_amended {n : ℕ} (c : IkContext n)
    (opts : DifferentialIkOptions) (minS maxS e1 e2 iN : ℝ) (fuel : ℕ)
    (s : SolveState n) (v : ℝ) (hms : minS ≤ maxS) (hiN : 0 < iN)
    (h12 : e1 ≤ e2) (hv : s.initialErrorNorm = some v) (hv0 : v ≠ 0) :
    alphaStep minS maxS e2 iN ≤ alphaStep minS maxS e1 iN ∧
    alphaStep minS maxS iN iN = minS ∧
    alphaStep minS maxS 0 iN = maxS ∧
    ((DifferentialIk.outerLoop c opts fuel s).2).initialErrorNorm = some v := by
  refine ⟨?_, ?_, ?_, outerLoop_preserves_ien c opts fuel s v hv hv0⟩
  · unfold alphaStep
    have hd : e1 / iN ≤ e2 / iN := by
      apply div_le_div_of_nonneg_right h12 hiN.le
    have := mul_le_mul_of_nonneg_right
      (show (1 - e2 / iN) ≤ (1 - e1 / iN) by linarith)
      (show (0 : ℝ) ≤ maxS - minS by linarith)
    linarith
  · unfold alphaStep
    rw [div_self hiN.ne']
    ring
  · unfold alphaStep
    rw [zero_div]
    ring

/-- A minimal concrete solver context used to instantiate hypotheses of the
amended C3 theorem. -/
noncomputable def c3ctx : IkContext 1 where
  lower := fun _ => -1
  upper := fun _ => 1
  errAt := fun _ _ => 0
  jacAt := fun _ => 0
  collision := none
  randomState := fun _ _ => 0
  nullspace := []

/-- Concrete options for the C3 witness. -/
def c3opts : DifferentialIkOptions where
  maxIters := 1
  maxRetries := 0
  maxTranslationError := 1
  maxRotationError := 1
  damping := 1
  minStepSize := 1
  maxStepSize := 1

/-- Concrete solver state with a recorded reference error norm of 1. -/
noncomputable def c3state : SolveState 1 where
  qCur := fun _ => 0
  initialErrorNorm := some 1
  aliased := false
  arr := fun _ => 0
  steps := 0
  randCount := 0

/-- Witness for the amended C3 theorem at concrete inputs. -/
theorem C3_alpha_amended_witness :
    ((0.1 : ℝ) ≤ 0.5 ∧ (0 : ℝ) < 1 ∧ (0.5 : ℝ) ≤ 1 ∧
      c3state.initialErrorNorm = some 1 ∧ (1 : ℝ) ≠ 0) ∧
    (alphaStep 0.1 0.5 1 1 ≤ alphaStep 0.1 0.5 0.5 1 ∧
      alphaStep 0.1 0.5 1 1 = 0.1 ∧
      alphaStep 0.1 0.5 0 1 = 0.5 ∧
      ((DifferentialIk.outerLoop c3ctx c3opts 1 c3state).2).initialErrorNorm =
        some 1) :=
  ⟨⟨by norm_num, by norm_num, by norm_num, rfl, by norm_num⟩,
    C3_alpha_amended c3ctx c3opts 0.1 0.5 0.5 1 1 1 c3state 1
      (by norm_num) (by norm_num) (by norm_num) rfl (by norm_num)⟩

theorem vnorm_nonneg {k : ℕ} (v : Fin k → ℝ) : 0 ≤ vnorm v :=
  Real.sqrt_nonneg _

theorem vnorm_smul {k : ℕ} (a : ℝ) (v : Fin k → ℝ) :
    vnorm (a • v) = |a| * vnorm v := by
  unfold vnorm
  have : ∑ i, (a • v) i ^ 2 = a ^ 2 * ∑ i, v i ^ 2 := by
    rw [Finset.mul_sum]
    refine Finset.sum_congr rfl fun i _ => ?_
    simp [mul_pow]
  rw [this, Real.sqrt_mul (sq_nonneg a), Real.sqrt_sq_eq_abs]

/-- The geometric data the pinocchio collision oracle supplies for one
collision pair inside `collision_avoidance_nullspace_component`: the signed
distance `dist` (`distance_lower_bound` when in collision, else
`min_distance`), the raw Cartesian separation vector `distance_vec` produced
by the contact/nearest-point branch before any flip or padding, the parent
frame indices of the two geometries, and the two candidate frame Jacobians. -/
structure CollisionPairData (n : ℕ) where
  dist : ℝ
  distanceVec : Fin 3 → ℝ
  parentFrame1 : ℕ
  parentFrame2 : ℕ
  Jframe1 : Matrix (Fin 6) (Fin n) ℝ
  Jframe2 : Matrix (Fin 6) (Fin n) ℝ

/-- The translational rows `Jframe[:3, :]` of a frame Jacobian. -/
def topRows3 {n : ℕ} (M : Matrix (Fin 6) (Fin n) ℝ) :
    Matrix (Fin 3) (Fin n) ℝ :=
  M.submatrix (Fin.castAdd 3) id

open Classical in
/-- The joint-space correction `delta_q` contributed by one collision pair in
`collision_avoidance_nullspace_component`; pairs farther than `dist_padding`
are skipped (`continue`), otherwise the frame whose parent is deeper in the
chain anchors the Jacobian (flipping the separation vector's sign when it is
the pair's second member), the vector is faded by `1 - dist_padding/|dist|`
away from contact, and mapped to joint space by damped least squares on the
translational rows. -/
noncomputable def pairDeltaQ {n : ℕ} (nframes : ℕ)
    (distPadding damping : ℝ) (p : CollisionPairData n) : Config n :=
  if distPadding < p.dist then 0
  else
    let flipOrder := nframes ≤ p.parentFrame1 ∨ p.parentFrame1 < p.parentFrame2
    let Jframe := if flipOrder then p.Jframe2 else p.Jframe1
    let dv1 := if flipOrder then -p.distanceVec else p.distanceVec
    let dv2 := if 1 / 1000000 < |p.dist| then
        (1 - distPadding / |p.dist|) • dv1 else dv1
    let Jcoll := topRows3 Jframe
    Jcoll.transpose *ᵥ ((Jcoll * Jcoll.transpose + damping ^ 2 • 1)⁻¹ *ᵥ dv2)

/-- The gain-scaled aggregate vector accumulated over all collision pairs
(`coll_component -= delta_q` for each pair, then `gain * coll_component`). -/
noncomputable def collAggregate {n : ℕ} (nframes : ℕ)
    (pairs : List (CollisionPairData n)) (distPadding damping gain : ℝ) :
    Config n :=
  gain • (-(pairs.map (pairDeltaQ nframes distPadding damping)).sum)

open Classical in
/-- The full `collision_avoidance_nullspace_component`: the gain-scaled
aggregate, clipped to the maximum velocity norm `max_vel`. -/
noncomputable def collision_avoidance_nullspace_component {n : ℕ}
    (nframes : ℕ) (pairs : List (CollisionPairData n))
    (distPadding maxVel damping gain : ℝ) : Config n :=
  let collComponent := collAggregate nframes pairs distPadding damping gain
  let finalNorm := vnorm collComponent
  if maxVel < finalNorm then (maxVel / finalNorm) • collComponent
  else collComponent

/-- C9: for every input with `max_vel > 0`, the returned vector is the
gain-scaled per-pair aggregate clipped to norm at most `max_vel`: its
Euclidean norm never exceeds `max_vel`, and when the aggregate's norm exceeds
`max_vel` the result is the aggregate rescaled by `max_vel / norm`, whose
norm is exactly `max_vel` (same direction). -/
theorem C9_collision_component_clipped {n : ℕ} (nframes : ℕ)
    (pairs : List (CollisionPairData n)) (distPadding maxVel damping gain : ℝ)
    (hmax : 0 < maxVel) :
    vnorm (collision_avoidance_nullspace_component nframes pairs distPadding
      maxVel damping gain) ≤ maxVel ∧
    (maxVel < vnorm (collAggregate nframes pairs distPadding damping gain) →
      collision_avoidance_nullspace_component nframes pairs distPadding
          maxVel damping gain =
        (maxVel / vnorm (collAggregate nframes pairs distPadding damping gain)) •
          collAggregate nframes pairs distPadding damping gain ∧
      vnorm (collision_avoidance_nullspace_component nframes pairs distPadding
        maxVel damping gain) = maxVel) := by
  set agg := collAggregate nframes pairs distPadding damping gain with hagg
  by_cases h : maxVel < vnorm agg
  · have hN : 0 < vnorm agg := lt_trans hmax h
    have hres : collision_avoidance_nullspace_component nframes pairs
        distPadding maxVel damping gain = (maxVel / vnorm agg) • agg := by
      unfold collision_avoidance_nullspace_component
      rw [← hagg, if_pos h]
    have hnorm : vnorm ((maxVel / vnorm agg) • agg) = maxVel := by
      rw [vnorm_smul, abs_of_pos (div_pos hmax hN), div_mul_cancel₀ _ hN.ne']
    refine ⟨?_, fun _ => ⟨hres, ?_⟩⟩
    · rw [hres, hnorm]
    · rw [hres, hnorm]
  · have hres : collision_avoidance_nullspace_component nframes pairs
        distPadding maxVel damping gain = agg := by
      unfold collision_avoidance_nullspace_component
      rw [← hagg, if_neg h]
    exact ⟨by rw [hres]; exact not_lt.mp h, fun h' => absurd h' h⟩

/-- Witness for C9 at a concrete input (no collision pairs, unit gain and
velocity limit). -/
theorem C9_collision_component_clipped_witness :
    (0 : ℝ) < 1 ∧
    (vnorm (collision_avoidance_nullspace_component (n := 1) 1 [] 0.05 1 0.0001 1) ≤ 1 ∧
      (1 < vnorm (collAggregate (n := 1) 1 [] 0.05 0.0001 1) →
        collision_avoidance_nullspace_component (n := 1) 1 [] 0.05 1 0.0001 1 =
          (1 / vnorm (collAggregate (n := 1) 1 [] 0.05 0.0001 1)) •
            collAggregate (n := 1) 1 [] 0.05 0.0001 1 ∧
        vnorm (collision_avoidance_nullspace_component (n := 1) 1 [] 0.05 1 0.0001 1) = 1)) :=
  ⟨by norm_num,
    C9_collision_component_clipped (n := 1) 1 [] 0.05 1 0.0001 1 (by norm_num)⟩

/-- The `_eval_acceleration` expression of `CubicTrajectoryOptimization`,
restricted to one segment `k` and one degree of freedom `n`:
`(-3 x_d[k] + 4 xc_d[k] - x_d[k+1]) / h + 4 (x_d[k] - 2 xc_d[k] + x_d[k+1])
(step h) / h²`, with `xdk = x_d[k,n]`, `xdk1 = x_d[k+1,n]`,
`xcdk = xc_d[k,n]` and `h = h[k]`. -/
def evalAcceleration (xdk xdk1 xcdk h step : ℚ) : ℚ :=
  (-3 * xdk + 4 * xcdk - xdk1) / h +
    4 * (xdk - 2 * xcdk + xdk1) * (step * h) / h ^ 2

/-- The `_eval_jerk` expression of `CubicTrajectoryOptimization`:
`8 (x_d[k] - 2 xc_d[k] + x_d[k+1]) / h²`; the `step` argument is accepted but
unused. -/
def evalJerk (xdk xdk1 xcdk h step : ℚ) : ℚ :=
  8 * (xdk - 2 * xcdk + xdk1) / h ^ 2

/-- C8: for every segment with positive duration, the acceleration expression
is an affine function of the normalized step parameter and the jerk
expression is constant in it, so the acceleration and jerk bounds imposed at
the two segment endpoints (step 0 and step 1) hold at every step in
`[0, 1]`. -/
theorem C8_accel_jerk_endpoint_bounds (xdk xdk1 xcdk h step lo hi loJ hiJ : ℚ)
    (hh : 0 < h) (hs0 : 0 ≤ step) (hs1 : step ≤ 1)
    (hl0 : lo ≤ evalAcceleration xdk xdk1 xcdk h 0)
    (hu0 : evalAcceleration xdk xdk1 xcdk h 0 ≤ hi)
    (hl1 : lo ≤ evalAcceleration xdk xdk1 xcdk h 1)
    (hu1 : evalAcceleration xdk xdk1 xcdk h 1 ≤ hi)
    (hjl : loJ ≤ evalJerk xdk xdk1 xcdk h 0)
    (hju : evalJerk xdk xdk1 xcdk h 0 ≤ hiJ) :
    evalAcceleration xdk xdk1 xcdk h step =
      (1 - step) * evalAcceleration xdk xdk1 xcdk h 0 +
        step * evalAcceleration xdk xdk1 xcdk h 1 ∧
    evalJerk xdk xdk1 xcdk h step = evalJerk xdk xdk1 xcdk h 0 ∧
    (lo ≤ evalAcceleration xdk xdk1 xcdk h step ∧
      evalAcceleration xdk xdk1 xcdk h step ≤ hi) ∧
    (loJ ≤ evalJerk xdk xdk1 xcdk h step ∧
      evalJerk xdk xdk1 xcdk h step ≤ hiJ) := by
  have hne : h ≠ 0 := hh.ne'
  have key : evalAcceleration xdk xdk1 xcdk h step =
      (1 - step) * evalAcceleration xdk xdk1 xcdk h 0 +
        step * evalAcceleration xdk xdk1 xcdk h 1 := by
    unfold evalAcceleration
    field_simp
    ring
  have kj : evalJerk xdk xdk1 xcdk h step = evalJerk xdk xdk1 xcdk h 0 := rfl
  refine ⟨key, kj, ⟨?_, ?_⟩, kj ▸ ⟨hjl, hju⟩⟩
  · rw [key]
    have a1 : (1 - step) * lo ≤ (1 - step) * evalAcceleration xdk xdk1 xcdk h 0 :=
      mul_le_mul_of_nonneg_left hl0 (by linarith)
    have a2 : step * lo ≤ step * evalAcceleration xdk xdk1 xcdk h 1 :=
      mul_le_mul_of_nonneg_left hl1 hs0
    nlinarith
  · rw [key]
    have a1 : (1 - step) * evalAcceleration xdk xdk1 xcdk h 0 ≤ (1 - step) * hi :=
      mul_le_mul_of_nonneg_left hu0 (by linarith)
    have a2 : step * evalAcceleration xdk xdk1 xcdk h 1 ≤ step * hi :=
      mul_le_mul_of_nonneg_left hu1 hs0
    nlinarith

/-- Witness for C8 at a concrete segment. -/
theorem C8_accel_jerk_endpoint_bounds_witness :
    ((0 : ℚ) < 1 ∧ (0 : ℚ) ≤ 1 / 2 ∧ (1 / 2 : ℚ) ≤ 1 ∧
      (-100 : ℚ) ≤ evalAcceleration 0 0 1 1 0 ∧
      evalAcceleration 0 0 1 1 0 ≤ 100 ∧
      (-100 : ℚ) ≤ evalAcceleration 0 0 1 1 1 ∧
      evalAcceleration 0 0 1 1 1 ≤ 100 ∧
      (-100 : ℚ) ≤ evalJerk 0 0 1 1 0 ∧ evalJerk 0 0 1 1 0 ≤ 100) ∧
    (evalAcceleration 0 0 1 1 (1 / 2) =
        (1 - 1 / 2) * evalAcceleration 0 0 1 1 0 +
          (1 / 2) * evalAcceleration 0 0 1 1 1 ∧
      evalJerk 0 0 1 1 (1 / 2) = evalJerk 0 0 1 1 0 ∧
      ((-100 : ℚ) ≤ evalAcceleration 0 0 1 1 (1 / 2) ∧
        evalAcceleration 0 0 1 1 (1 / 2) ≤ 100) ∧
      ((-100 : ℚ) ≤ evalJerk 0 0 1 1 (1 / 2) ∧
        evalJerk 0 0 1 1 (1 / 2) ≤ 100)) :=
  ⟨⟨by norm_num, by norm_num, by norm_num,
      by norm_num [evalAcceleration], by norm_num [evalAcceleration],
      by norm_num [evalAcceleration], by norm_num [evalAcceleration],
      by norm_num [evalJerk], by norm_num [evalJerk]⟩,
    C8_accel_jerk_endpoint_bounds 0 0 1 1 (1 / 2) (-100) 100 (-100) 100
      (by norm_num) (by norm_num) (by norm_num)
      (by norm_num [evalAcceleration]) (by norm_num [evalAcceleration])
      (by norm_num [evalAcceleration]) (by norm_num [evalAcceleration])
      (by norm_num [evalJerk]) (by norm_num [evalJerk])⟩

/-- A joint-space vector over the rationals (used for the trajectory
optimizer, whose guess arithmetic is exact). -/
abbrev QVec (d : ℕ) := Fin d → ℚ

/-- The code's initial duration guess
`h_init = 0.5 * (max_segment_time - min_segment_time)`. -/
def hInit (minSegmentTime maxSegmentTime : ℚ) : ℚ :=
  (1 / 2) * (maxSegmentTime - minSegmentTime)

/-- The `j`-th of `num` points of `np.linspace(a, b, num)`:
`a + (j / (num - 1)) * (b - a)`. -/
def linspacePoint {d : ℕ} (a b : QVec d) (num j : ℕ) : QVec d :=
  a + (((j : ℚ) / ((num : ℚ) - 1)) • (b - a))

/-- The initial guesses `CubicTrajectoryOptimization.plan` registers with the
mathematical program: waypoint positions `x`, collocation positions `xc`, the
common segment-duration guess `h`, and the waypoint/collocation velocity
guesses `x_d`/`xc_d`. -/
structure InitialGuess (d : ℕ) where
  x : ℕ → QVec d
  xc : ℕ → QVec d
  h : ℚ
  x_d : ℕ → QVec d
  xc_d : ℕ → QVec d

/-- The guess-seeding block of `CubicTrajectoryOptimization.plan`.  The
Python `init_path=None` default and an empty list are both falsy, so
`initPath = []` models "no explicit initial guess".  With an explicit guess
or a fully pinned path, waypoints are seeded from the path and collocation
points at the arithmetic midpoints of consecutive path entries; otherwise
both are seeded from `np.linspace(q_path[0], q_path[-1], 2*num_waypoints-1)`
(even indices for waypoints, odd for collocation points).  Durations are
seeded at `hInit` and all velocities at zero in both branches. -/
def setInitialGuess {d : ℕ} (numWaypoints : ℕ) (minT maxT : ℚ)
    (qPath : List (QVec d)) (initPath : List (QVec d))
    (fullySpecifiedPath : Bool) : InitialGuess d :=
  if !initPath.isEmpty || fullySpecifiedPath then
    let qp := if !initPath.isEmpty then initPath else qPath
    { x := fun k => qp.getD k 0
      xc := fun k => (1 / 2 : ℚ) • (qp.getD k 0 + qp.getD (k + 1) 0)
      h := hInit minT maxT
      x_d := fun _ => 0
      xc_d := fun _ => 0 }
  else
    { x := fun k => linspacePoint (qPath.getD 0 0)
        (qPath.getD (qPath.length - 1) 0) (2 * numWaypoints - 1) (2 * k)
      xc := fun k => linspacePoint (qPath.getD 0 0)
        (qPath.getD (qPath.length - 1) 0) (2 * numWaypoints - 1) (2 * k + 1)
      h := hInit minT maxT
      x_d := fun _ => 0
      xc_d := fun _ => 0 }

/-- C7 counterexample: the claim says the duration guess is the midpoint
`(min_segment_time + max_segment_time) / 2` of the duration bounds, but the
code computes `0.5 * (max_segment_time - min_segment_time)`.  At the default
bounds `min = 0.01`, `max = 10` the code seeds `4.995`, not the midpoint
`5.005`. -/
theorem C7_duration_guess_counterexample :
    (setInitialGuess (d := 1) 3 (1 / 100) 10 [] [] true).h = 999 / 200 ∧
    (setInitialGuess (d := 1) 3 (1 / 100) 10 [] [] true).h ≠
      (1 / 100 + 10) / 2 := by
  constructor
  · norm_num [setInitialGuess, hInit]
  · norm_num [setInitialGuess, hInit]

/-- C7 amended: the duration guess for every segment is half the width of the
duration bounds, `(max_segment_time - min_segment_time) / 2` (not their
midpoint); with a fully pinned path or an explicit initial guess, waypoint
guesses come from the given path and each collocation guess is the arithmetic
midpoint of its two bounding waypoints; otherwise waypoint and collocation
guesses are linearly interpolated between start and goal; all velocity
guesses are zero. -/
theorem C7_initial_guess_amended {d : ℕ} (numWaypoints : ℕ) (minT maxT : ℚ)
    (qPath : List (QVec d)) (p : QVec d) (ps : List (QVec d)) (k : ℕ)
    (hnw : 1 ≤ numWaypoints) :
    (setInitialGuess numWaypoints minT maxT qPath [] true).h =
      (maxT - minT) / 2 ∧
    (setInitialGuess numWaypoints minT maxT qPath [] false).h =
      (maxT - minT) / 2 ∧
    (setInitialGuess numWaypoints minT maxT qPath [] true).x k =
      qPath.getD k 0 ∧
    (setInitialGuess numWaypoints minT maxT qPath [] true).xc k =
      (1 / 2 : ℚ) • (qPath.getD k 0 + qPath.getD (k + 1) 0) ∧
    (setInitialGuess numWaypoints minT maxT qPath (p :: ps) false).x k =
      (p :: ps).getD k 0 ∧
    (setInitialGuess numWaypoints minT maxT qPath (p :: ps) false).xc k =
      (1 / 2 : ℚ) • ((p :: ps).getD k 0 + (p :: ps).getD (k + 1) 0) ∧
    (setInitialGuess numWaypoints minT maxT qPath [] false).x k =
      qPath.getD 0 0 + (((2 * k : ℚ) / ((2 * numWaypoints : ℚ) - 1 - 1)) •
        (qPath.getD (qPath.length - 1) 0 - qPath.getD 0 0)) ∧
    (setInitialGuess numWaypoints minT maxT qPath [] false).xc k =
      qPath.getD 0 0 + (((2 * k + 1 : ℚ) / ((2 * numWaypoints : ℚ) - 1 - 1)) •
        (qPath.getD (qPath.length - 1) 0 - qPath.getD 0 0)) ∧
    (setInitialGuess numWaypoints minT maxT qPath [] true).x_d k = 0 ∧
    (setInitialGuess numWaypoints minT maxT qPath [] true).xc_d k = 0 ∧
    (setInitialGuess numWaypoints minT maxT qPath [] false).x_d k = 0 ∧
    (setInitialGuess numWaypoints minT maxT qPath [] false).xc_d k = 0 := by
  have hle : (1 : ℕ) ≤ 2 * numWaypoints := by omega
  have hc : (((2 * numWaypoints - 1 : ℕ)) : ℚ) = (2 * numWaypoints : ℚ) - 1 := by
    rw [Nat.cast_sub hle]
    push_cast
    ring
  refine ⟨?_, ?_, ?_, ?_, ?_, ?_, ?_, ?_, ?_, ?_, ?_, ?_⟩
  · simp only [setInitialGuess, hInit]
    norm_num
    ring
  · simp only [setInitialGuess, hInit]
    norm_num
    ring
  · simp [setInitialGuess]
  · simp [setInitialGuess]
  · simp [setInitialGuess]
  · simp [setInitialGuess]
  · simp only [setInitialGuess, linspacePoint, List.isEmpty_nil,
      Bool.not_true, Bool.false_or, ite_false]
    rw [hc]
    push_cast
    norm_num
  · simp only [setInitialGuess, linspacePoint, List.isEmpty_nil,
      Bool.not_true, Bool.false_or, ite_false]
    rw [hc]
    push_cast
    norm_num
  · simp [setInitialGuess]
  · simp [setInitialGuess]
  · simp [setInitialGuess]
  · simp [setInitialGuess]

/-- Witness for the amended C7 theorem at a concrete input. -/
theorem C7_initial_guess_amended_witness :
    (1 : ℕ) ≤ 2 ∧
    ((setInitialGuess (d := 1) 2 0 1 [] [] true).h = (1 - 0) / 2 ∧
      (setInitialGuess (d := 1) 2 0 1 [] [] false).h = (1 - 0) / 2 ∧
      (setInitialGuess (d := 1) 2 0 1 [] [] true).x 0 =
        ([] : List (QVec 1)).getD 0 0 ∧
      (setInitialGuess (d := 1) 2 0 1 [] [] true).xc 0 =
        (1 / 2 : ℚ) • (([] : List (QVec 1)).getD 0 0 +
          ([] : List (QVec 1)).getD 1 0) ∧
      (setInitialGuess (d := 1) 2 0 1 [] [0] false).x 0 =
        ([(0 : QVec 1)]).getD 0 0 ∧
      (setInitialGuess (d := 1) 2 0 1 [] [0] false).xc 0 =
        (1 / 2 : ℚ) • (([(0 : QVec 1)]).getD 0 0 +
          ([(0 : QVec 1)]).getD 1 0) ∧
      (setInitialGuess (d := 1) 2 0 1 [] [] false).x 0 =
        ([] : List (QVec 1)).getD 0 0 +
          (((2 * 0 : ℚ) / ((2 * 2 : ℚ) - 1 - 1)) •
            (([] : List (QVec 1)).getD (([] : List (QVec 1)).length - 1) 0 -
              ([] : List (QVec 1)).getD 0 0)) ∧
      (setInitialGuess (d := 1) 2 0 1 [] [] false).xc 0 =
        ([] : List (QVec 1)).getD 0 0 +
          (((2 * 0 + 1 : ℚ) / ((2 * 2 : ℚ) - 1 - 1)) •
            (([] : List (QVec 1)).getD (([] : List (QVec 1)).length - 1) 0 -
              ([] : List (QVec 1)).getD 0 0)) ∧
      (setInitialGuess (d := 1) 2 0 1 [] [] true).x_d 0 = 0 ∧
      (setInitialGuess (d := 1) 2 0 1 [] [] true).xc_d 0 = 0 ∧
      (setInitialGuess (d := 1) 2 0 1 [] [] false).x_d 0 = 0 ∧
      (setInitialGuess (d := 1) 2 0 1 [] [] false).xc_d 0 = 0) :=
  ⟨by norm_num,
    C7_initial_guess_amended (d := 1) 2 0 1 [] 0 [] 0 (by norm_num)⟩

/-- A kinematic limit option: `np.array(limits)` is either a scalar
(0-dimensional) or a 1-dimensional vector. -/
inductive LimitSpec where
  | scalar (v : ℚ)
  | vector (vs : List ℚ)

/-- The `_process_limits` helper: scalars and 1-element vectors broadcast to
the number of degrees of freedom; any other vector must have exactly
`num_dofs` entries or a `ValueError` is raised. -/
def processLimits (limits : LimitSpec) (numDofs : ℕ) (name : String) :
    Except String (List ℚ) :=
  match limits with
  | .scalar v => .ok (List.replicate numDofs v)
  | .vector vs =>
    if vs.length = 1 then .ok (List.replicate numDofs (vs.headD 0))
    else if vs.length = numDofs then .ok vs
    else .error (name ++ " vector must have shape (" ++ toString numDofs ++ ",)")

/-- Options for cubic trajectory optimization, mirroring
`CubicTrajectoryOptimizationOptions` (limits kept in their raw
scalar-or-vector form, as stored by `__init__`). -/
structure CubicTrajectoryOptimizationOptions where
  numWaypoints : ℕ
  samplesPerSegment : ℕ
  minSegmentTime : ℚ
  maxSegmentTime : ℚ
  minVel : LimitSpec
  maxVel : LimitSpec
  minAccel : LimitSpec
  maxAccel : LimitSpec
  minJerk : LimitSpec
  maxJerk : LimitSpec
  checkCollisions : Bool
  minCollisionDist : ℚ
  collisionInfluenceDist : ℚ

/-- The validating constructor `CubicTrajectoryOptimizationOptions.__init__`:
raises on fewer than two waypoints or a non-positive minimum segment time,
otherwise stores the fields unchanged. -/
def mkOptions (numWaypoints samplesPerSegment : ℕ)
    (minSegmentTime maxSegmentTime : ℚ)
    (minVel maxVel minAccel maxAccel minJerk maxJerk : LimitSpec)
    (checkCollisions : Bool) (minCollisionDist collisionInfluenceDist : ℚ) :
    Except String CubicTrajectoryOptimizationOptions :=
  if numWaypoints < 2 then
    .error "The number of waypoints must be greater than or equal to 2."
  else if minSegmentTime ≤ 0 then
    .error "The minimum segment time must be positive."
  else
    .ok { numWaypoints := numWaypoints, samplesPerSegment := samplesPerSegment,
          minSegmentTime := minSegmentTime, maxSegmentTime := maxSegmentTime,
          minVel := minVel, maxVel := maxVel, minAccel := minAccel,
          maxAccel := maxAccel, minJerk := minJerk, maxJerk := maxJerk,
          checkCollisions := checkCollisions,
          minCollisionDist := minCollisionDist,
          collisionInfluenceDist := collisionInfluenceDist }

/-- Outcome of the validation prefix of `CubicTrajectoryOptimization.plan`,
before any numerical work: an empty path warns and returns `None`, a bad
path length or limit vector raises, and otherwise planning proceeds with the
processed limit vectors. -/
inductive PlanCheck where
  | warnedNone
  | raised (msg : String)
  | proceeds (fullySpecifiedPath : Bool) (limits : List (List ℚ))

/-- The six `_process_limits` calls of `plan`, in source order; the first
failure raises. -/
def processSixLimits (opts : CubicTrajectoryOptimizationOptions)
    (numDofs : ℕ) : Except String (List (List ℚ)) := do
  let a ← processLimits opts.minVel numDofs "min_vel"
  let b ← processLimits opts.maxVel numDofs "max_vel"
  let c ← processLimits opts.minAccel numDofs "min_accel"
  let d ← processLimits opts.maxAccel numDofs "max_accel"
  let e ← processLimits opts.minJerk numDofs "min_jerk"
  let f ← processLimits opts.maxJerk numDofs "max_jerk"
  return [a, b, c, d, e, f]

/-- The validation prefix of `CubicTrajectoryOptimization.plan`: empty paths
warn and return `None`; then the path length must be `num_waypoints` (fully
specified) or 2, else a `ValueError` is raised; then the six kinematic
limits are processed. -/
def planValidation (opts : CubicTrajectoryOptimizationOptions)
    (qPath : List (List ℚ)) : PlanCheck :=
  if qPath.length = 0 then .warnedNone
  else
    let numDofs := (qPath.headD []).length
    let fullySpecified? : Option Bool :=
      if qPath.length = opts.numWaypoints then some true
      else if qPath.length = 2 then some false
      else none
    match fullySpecified? with
    | none => .raised "Path must either be length 2 or equal to num_waypoints."
    | some fs =>
      match processSixLimits opts numDofs with
      | .error m => .raised m
      | .ok ls => .proceeds fs ls

/-- Concrete valid options used by the C4 counterexample. -/
def c4opts : CubicTrajectoryOptimizationOptions where
  numWaypoints := 3
  samplesPerSegment := 11
  minSegmentTime := 1 / 100
  maxSegmentTime := 10
  minVel := .scalar (-1)
  maxVel := .scalar 1
  minAccel := .scalar (-1)
  maxAccel := .scalar 1
  minJerk := .scalar (-1)
  maxJerk := .scalar 1
  checkCollisions := false
  minCollisionDist := 0
  collisionInfluenceDist := 1 / 20

/-- C4 counterexample: two malformed inputs that do not raise.  An empty
waypoint list has length neither 2 nor `num_waypoints = 3`, yet `plan` warns
and returns `None` instead of raising; and a 1-element limit vector is
non-scalar with shape differing from `num_dofs = 3`, yet `_process_limits`
broadcasts it instead of raising. -/
theorem C4_validation_counterexample :
    planValidation c4opts [] = PlanCheck.warnedNone ∧
    processLimits (.vector [5]) 3 "min_vel" = .ok [5, 5, 5] := by
  constructor
  · rfl
  · rfl

/-- C4 amended: options construction raises exactly when `num_waypoints < 2`
or `min_segment_time ≤ 0`; a limit vector that is neither scalar nor of
length 1 raises when its length differs from the number of degrees of
freedom (length-1 vectors broadcast like scalars); a non-empty waypoint list
whose length is neither 2 nor `num_waypoints` raises; but an empty waypoint
list produces a warning and the `None` result rather than an error. -/
theorem C4_validation_amended (nw sps : ℕ) (minT maxT : ℚ)
    (l1 l2 l3 l4 l5 l6 : LimitSpec) (cc : Bool) (mcd cid : ℚ)
    (opts : CubicTrajectoryOptimizationOptions) (qPath : List (List ℚ))
    (vs : List ℚ) (numDofs : ℕ) (nm : String)
    (hne : qPath ≠ []) (hlen2 : qPath.length ≠ 2)
    (hlenw : qPath.length ≠ opts.numWaypoints)
    (hvs1 : vs.length ≠ 1) (hvsd : vs.length ≠ numDofs) :
    ((∃ msg, mkOptions nw sps minT maxT l1 l2 l3 l4 l5 l6 cc mcd cid =
        .error msg) ↔ nw < 2 ∨ minT ≤ 0) ∧
    planValidation opts [] = PlanCheck.warnedNone ∧
    planValidation opts qPath =
      PlanCheck.raised "Path must either be length 2 or equal to num_waypoints." ∧
    (∃ msg, processLimits (.vector vs) numDofs nm = .error msg) := by
  refine ⟨?_, rfl, ?_, ?_⟩
  · constructor
    · rintro ⟨msg, hmsg⟩
      unfold mkOptions at hmsg
      by_cases h1 : nw < 2
      · exact Or.inl h1
      · rw [if_neg h1] at hmsg
        by_cases h2 : minT ≤ 0
        · exact Or.inr h2
        · rw [if_neg h2] at hmsg
          exact absurd hmsg (by simp)
    · intro h
      unfold mkOptions
      by_cases h1 : nw < 2
      · exact ⟨_, by rw [if_pos h1]⟩
      · have h2 : minT ≤ 0 := h.resolve_left h1
        exact ⟨_, by rw [if_neg h1, if_pos h2]⟩
  · unfold planValidation
    rw [if_neg (by simpa [List.length_eq_zero] using hne)]
    simp only [if_neg hlenw, if_neg hlen2]
  · simp only [processLimits, hvs1, hvsd, ite_false]
    exact ⟨_, rfl⟩

/-- Witness for the amended C4 theorem at concrete inputs: a length-1 path
with 3 configured waypoints and a length-2 limit vector against 3 degrees of
freedom. -/
theorem C4_validation_amended_witness :
    (([[(1 : ℚ)]] : List (List ℚ)) ≠ [] ∧
      ([[(1 : ℚ)]] : List (List ℚ)).length ≠ 2 ∧
      ([[(1 : ℚ)]] : List (List ℚ)).length ≠ c4opts.numWaypoints ∧
      ([(1 : ℚ), 1] : List ℚ).length ≠ 1 ∧
      ([(1 : ℚ), 1] : List ℚ).length ≠ 3) ∧
    (((∃ msg, mkOptions 3 11 (1 / 100) 10 (.scalar 0) (.scalar 0) (.scalar 0)
        (.scalar 0) (.scalar 0) (.scalar 0) false 0 (1 / 20) = .error msg) ↔
        3 < 2 ∨ (1 / 100 : ℚ) ≤ 0) ∧
      planValidation c4opts [] = PlanCheck.warnedNone ∧
      planValidation c4opts [[(1 : ℚ)]] =
        PlanCheck.raised "Path must either be length 2 or equal to num_waypoints." ∧
      (∃ msg, processLimits (.vector [(1 : ℚ), 1]) 3 "min_vel" = .error msg)) :=
  ⟨⟨by simp, by simp, by simp [c4opts], by simp, by simp⟩,
    C4_validation_amended 3 11 (1 / 100) 10 (.scalar 0) (.scalar 0) (.scalar 0)
      (.scalar 0) (.scalar 0) (.scalar 0) false 0 (1 / 20) c4opts [[(1 : ℚ)]]
      [(1 : ℚ), 1] 3 "min_vel" (by simp) (by simp) (by simp [c4opts])
      (by simp) (by simp)⟩

theorem vnorm_zero {k : ℕ} : vnorm (0 : Fin k → ℝ) = 0 := by
  simp [vnorm]

open Classical in
/-- One inner-loop iteration whose tolerance check passes: the candidate is
wrapped, the alias is broken, and the limit/collision gate decides the
`solved` flag. -/
theorem innerLoop_converged {n : ℕ} (c : IkContext n)
    (opts : DifferentialIkOptions) (fuel : ℕ) (s : SolveState n)
    (hcond : vnorm (errTrans (c.errAt s.qCur)) < opts.maxTranslationError ∧
      vnorm (errRot (c.errAt s.qCur)) < opts.maxRotationError) :
    DifferentialIk.innerLoop c opts (fuel + 1) s =
      ({ s with qCur := fun i => wrapAngle (s.qCur i), aliased := false },
        if withinLimits c (fun i => wrapAngle (s.qCur i)) then
          (match c.collision with
            | some inCollision => ! inCollision (fun i => wrapAngle (s.qCur i))
            | none => true)
        else false) := by
  rw [DifferentialIk.innerLoop]
  exact if_pos hcond

open Classical in
/-- One inner-loop iteration whose tolerance check fails: a damped
least-squares step is added in place, mutating the aliased caller array when
one is still attached, and the loop continues. -/
theorem innerLoop_notConverged {n : ℕ} (c : IkContext n)
    (opts : DifferentialIkOptions) (fuel : ℕ) (s : SolveState n)
    (hcond : ¬(vnorm (errTrans (c.errAt s.qCur)) < opts.maxTranslationError ∧
      vnorm (errRot (c.errAt s.qCur)) < opts.maxRotationError)) :
    DifferentialIk.innerLoop c opts (fuel + 1) s =
      DifferentialIk.innerLoop c opts fuel
        { qCur := s.qCur + ikStep (c.jacAt s.qCur) opts.damping
            (alphaStep opts.minStepSize opts.maxStepSize (vnorm (c.errAt s.qCur))
              (match s.initialErrorNorm with
                | none => vnorm (c.errAt s.qCur)
                | some v => if v = 0 then vnorm (c.errAt s.qCur) else v))
            (c.errAt s.qCur) c.nullspace s.qCur
          initialErrorNorm := some (match s.initialErrorNorm with
            | none => vnorm (c.errAt s.qCur)
            | some v => if v = 0 then vnorm (c.errAt s.qCur) else v)
          aliased := s.aliased
          arr := if s.aliased then
              s.qCur + ikStep (c.jacAt s.qCur) opts.damping
                (alphaStep opts.minStepSize opts.maxStepSize (vnorm (c.errAt s.qCur))
                  (match s.initialErrorNorm with
                    | none => vnorm (c.errAt s.qCur)
                    | some v => if v = 0 then vnorm (c.errAt s.qCur) else v))
                (c.errAt s.qCur) c.nullspace s.qCur
            else s.arr
          steps := s.steps + 1
          randCount := s.randCount } := by
  rw [DifferentialIk.innerLoop]
  exact if_neg hcond

/-- One outer-loop attempt, unfolded. -/
theorem outerLoop_succ {n : ℕ} (c : IkContext n)
    (opts : DifferentialIkOptions) (fuel : ℕ) (s : SolveState n) :
    DifferentialIk.outerLoop c opts (fuel + 1) s =
      if (DifferentialIk.innerLoop c opts opts.maxIters s).2 then
        (some (DifferentialIk.innerLoop c opts opts.maxIters s).1.qCur,
          (DifferentialIk.innerLoop c opts opts.maxIters s).1)
      else
        DifferentialIk.outerLoop c opts fuel
          { qCur := c.randomState
              (DifferentialIk.innerLoop c opts opts.maxIters s).1.randCount
            initialErrorNorm :=
              (DifferentialIk.innerLoop c opts opts.maxIters s).1.initialErrorNorm
            aliased := false
            arr := (DifferentialIk.innerLoop c opts opts.maxIters s).1.arr
            steps := (DifferentialIk.innerLoop c opts opts.maxIters s).1.steps
            randCount :=
              (DifferentialIk.innerLoop c opts opts.maxIters s).1.randCount + 1 } := by
  rw [DifferentialIk.outerLoop]

/-- C5 amended: for every configuration `q` that additionally has all
components in `[-π, π)` (so the pre-check wrap fixes it), is within joint
limits and collision-free when checked, solving for the forward-kinematics
pose of the target frame at `q` (i.e., zero pose error at `q`) from initial
configuration `q`, with positive tolerances and a positive iteration budget,
returns exactly `q` with zero gradient-descent steps taken. -/
theorem C5_trivial_ik_amended {n : ℕ} (c : IkContext n)
    (opts : DifferentialIkOptions) (q : Config n)
    (hq : ∀ i, -Real.pi ≤ q i ∧ q i < Real.pi)
    (hlim : withinLimits c q) (hcol : collisionOk c q)
    (herr : c.errAt q = 0)
    (ht : 0 < opts.maxTranslationError) (hr : 0 < opts.maxRotationError)
    (hi : 0 < opts.maxIters) :
    (DifferentialIk.solve c opts (some q)).1 = some q ∧
    (DifferentialIk.solve c opts (some q)).2.steps = 0 := by
  classical
  obtain ⟨m, hm⟩ : ∃ m, opts.maxIters = m + 1 := ⟨opts.maxIters - 1, by omega⟩
  have hqw : (fun i => wrapAngle (q i)) = q :=
    funext fun i => wrapAngle_eq_self (hq i).1 (hq i).2
  set s0 : SolveState n :=
    { qCur := q, initialErrorNorm := none, aliased := true, arr := q,
      steps := 0, randCount := 0 } with hs0
  have hcond : vnorm (errTrans (c.errAt s0.qCur)) < opts.maxTranslationError ∧
      vnorm (errRot (c.errAt s0.qCur)) < opts.maxRotationError := by
    show vnorm (errTrans (c.errAt q)) < _ ∧ vnorm (errRot (c.errAt q)) < _
    rw [herr, show errTrans (0 : Fin 6 → ℝ) = 0 from rfl,
      show errRot (0 : Fin 6 → ℝ) = 0 from rfl, vnorm_zero]
    exact ⟨ht, hr⟩
  have hinner : DifferentialIk.innerLoop c opts opts.maxIters s0 =
      ({ qCur := q, initialErrorNorm := none, aliased := false, arr := q,
         steps := 0, randCount := 0 }, true) := by
    rw [hm, innerLoop_converged c opts m s0 hcond]
    have hqw' : (fun i => wrapAngle (s0.qCur i)) = q := hqw
    rw [hqw']
    have hok : (if withinLimits c q then
        (match c.collision with
          | some inCollision => ! inCollision q
          | none => true)
        else false) = true := by
      rw [if_pos hlim]
      cases hc : c.collision with
      | none => rfl
      | some f =>
        have hfq : f q = false := by
          have h' := hcol
          unfold collisionOk at h'
          rw [hc] at h'
          exact h'
        simp [hfq]
    rw [hok]
  have hsolve : DifferentialIk.solve c opts (some q) =
      (some q, { qCur := q, initialErrorNorm := none, aliased := false,
                 arr := q, steps := 0, randCount := 0 }) := by
    show DifferentialIk.outerLoop c opts (opts.maxRetries + 1) s0 = _
    rw [outerLoop_succ, hinner]
    simp
  rw [hsolve]
  exact ⟨rfl, rfl⟩

/-- Witness for the amended C5 theorem at a concrete input: a 1-DOF model
with limits `[-1, 1]`, zero pose error, initial configuration `0`. -/
theorem C5_trivial_ik_amended_witness :
    ((∀ i : Fin 1, -Real.pi ≤ (fun _ : Fin 1 => (0 : ℝ)) i ∧
        (fun _ : Fin 1 => (0 : ℝ)) i < Real.pi) ∧
      withinLimits c3ctx (fun _ => 0) ∧ collisionOk c3ctx (fun _ => 0) ∧
      c3ctx.errAt (fun _ => 0) = 0 ∧ (0 : ℝ) < c3opts.maxTranslationError ∧
      (0 : ℝ) < c3opts.maxRotationError ∧ 0 < c3opts.maxIters) ∧
    ((DifferentialIk.solve c3ctx c3opts (some fun _ => 0)).1 =
        some (fun _ => 0) ∧
      (DifferentialIk.solve c3ctx c3opts (some fun _ => 0)).2.steps = 0) :=
  ⟨⟨fun _ => ⟨by show -Real.pi ≤ (0 : ℝ); linarith [Real.pi_pos], Real.pi_pos⟩,
    fun _ => ⟨by norm_num [c3ctx], by norm_num [c3ctx]⟩, trivial, rfl,
    by norm_num [c3opts], by norm_num [c3opts], by norm_num [c3opts]⟩,
    C5_trivial_ik_amended c3ctx c3opts (fun _ => 0)
      (fun _ => ⟨by show -Real.pi ≤ (0 : ℝ); linarith [Real.pi_pos], Real.pi_pos⟩)
      (fun _ => ⟨by norm_num [c3ctx], by norm_num [c3ctx]⟩) trivial rfl
      (by norm_num [c3opts]) (by norm_num [c3opts]) (by norm_num [c3opts])⟩

/-- The concrete context for the C5 counterexample: a 1-DOF model whose
joint limits are `[6.9, 7.1]` and whose pose error at every configuration is
zero (the target pose is the forward-kinematics pose of the initial
configuration `q = 7`, and the toy error map is constant zero, which is
consistent with it). -/
noncomputable def c5ctx : IkContext 1 where
  lower := fun _ => 69 / 10
  upper := fun _ => 71 / 10
  errAt := fun _ _ => 0
  jacAt := fun _ => 0
  collision := none
  randomState := fun _ _ => 7
  nullspace := []

/-- Options for the C5 counterexample: one attempt of one iteration, unit
tolerances. -/
def c5opts : DifferentialIkOptions where
  maxIters := 1
  maxRetries := 0
  maxTranslationError := 1
  maxRotationError := 1
  damping := 1
  minStepSize := 1
  maxStepSize := 1

theorem wrapAngle_seven : wrapAngle 7 = 7 - 2 * Real.pi := by
  have h2pi : (0 : ℝ) < 2 * Real.pi := by positivity
  have hfl : ⌊(7 + Real.pi) / (2 * Real.pi)⌋ = 1 := by
    rw [Int.floor_eq_iff]
    constructor
    · rw [le_div_iff h2pi]
      push_cast
      nlinarith [Real.pi_lt_d2]
    · rw [div_lt_iff h2pi]
      push_cast
      nlinarith [Real.pi_gt_three]
  unfold wrapAngle realMod
  rw [hfl]
  push_cast
  ring

/-- C5 counterexample: with joint limits `[6.9, 7.1]`, the configuration
`q = 7` is within limits and has zero pose error (the target is its own
forward-kinematics pose), yet `solve` returns `None` rather than `q`: the
converged candidate is wrapped to `7 - 2π ≈ 0.72`, which violates the
limits, so the attempt is abandoned and the retry budget is exhausted. -/
theorem C5_trivial_ik_counterexample :
    withinLimits c5ctx (fun _ => 7) ∧
    c5ctx.errAt (fun _ => 7) = 0 ∧
    (DifferentialIk.solve c5ctx c5opts (some (fun _ => 7))).1 = none := by
  refine ⟨?_, rfl, ?_⟩
  · intro i
    constructor
    · show (69 / 10 : ℝ) ≤ 7
      norm_num
    · show (7 : ℝ) ≤ 71 / 10
      norm_num
  · classical
    set s0 : SolveState 1 :=
      { qCur := fun _ => 7, initialErrorNorm := none, aliased := true,
        arr := fun _ => 7, steps := 0, randCount := 0 } with hs0
    have hcond : vnorm (errTrans (c5ctx.errAt s0.qCur)) <
        c5opts.maxTranslationError ∧
        vnorm (errRot (c5ctx.errAt s0.qCur)) < c5opts.maxRotationError := by
      show vnorm (errTrans (c5ctx.errAt fun _ => 7)) < _ ∧
        vnorm (errRot (c5ctx.errAt fun _ => 7)) < _
      rw [show c5ctx.errAt (fun _ => 7) = 0 from rfl,
        show errTrans (0 : Fin 6 → ℝ) = 0 from rfl,
        show errRot (0 : Fin 6 → ℝ) = 0 from rfl, vnorm_zero]
      constructor <;> norm_num [c5opts]
    have hnotlim : ¬ withinLimits c5ctx (fun i => wrapAngle (s0.qCur i)) := by
      intro h
      have h1 := (h 0).1
      have h1' : (69 / 10 : ℝ) ≤ wrapAngle 7 := h1
      rw [wrapAngle_seven] at h1'
      nlinarith [Real.pi_gt_three]
    have hinner : DifferentialIk.innerLoop c5ctx c5opts c5opts.maxIters s0 =
        ({ s0 with qCur := fun i => wrapAngle (s0.qCur i), aliased := false },
          false) := by
      rw [show c5opts.maxIters = 0 + 1 from rfl,
        innerLoop_converged c5ctx c5opts 0 s0 hcond, if_neg hnotlim]
    show (DifferentialIk.outerLoop c5ctx c5opts (c5opts.maxRetries + 1) s0).1 =
      none
    rw [outerLoop_succ, hinner]
    simp [DifferentialIk.outerLoop]

theorem innerLoop_zero {n : ℕ} (c : IkContext n) (opts : DifferentialIkOptions)
    (s : SolveState n) : DifferentialIk.innerLoop c opts 0 s = (s, false) := rfl

theorem outerLoop_zero {n : ℕ} (c : IkContext n) (opts : DifferentialIkOptions)
    (s : SolveState n) : DifferentialIk.outerLoop c opts 0 s = (none, s) := rfl

/-- An attempt whose inner loop reports success returns its configuration
immediately. -/
theorem outerLoop_succ_solved {n : ℕ} (c : IkContext n)
    (opts : DifferentialIkOptions) (fuel : ℕ) (s : SolveState n)
    (h : (DifferentialIk.innerLoop c opts opts.maxIters s).2 = true) :
    DifferentialIk.outerLoop c opts (fuel + 1) s =
      (some (DifferentialIk.innerLoop c opts opts.maxIters s).1.qCur,
        (DifferentialIk.innerLoop c opts opts.maxIters s).1) := by
  rw [DifferentialIk.outerLoop]
  exact if_pos h

/-- An attempt whose inner loop fails rebinds `q_cur` to a fresh random
state (breaking the alias) and retries. -/
theorem outerLoop_succ_failed {n : ℕ} (c : IkContext n)
    (opts : DifferentialIkOptions) (fuel : ℕ) (s : SolveState n)
    (h : (DifferentialIk.innerLoop c opts opts.maxIters s).2 = false) :
    DifferentialIk.outerLoop c opts (fuel + 1) s =
      DifferentialIk.outerLoop c opts fuel
        { qCur := c.randomState
            (DifferentialIk.innerLoop c opts opts.maxIters s).1.randCount
          initialErrorNorm :=
            (DifferentialIk.innerLoop c opts opts.maxIters s).1.initialErrorNorm
          aliased := false
          arr := (DifferentialIk.innerLoop c opts opts.maxIters s).1.arr
          steps := (DifferentialIk.innerLoop c opts opts.maxIters s).1.steps
          randCount :=
            (DifferentialIk.innerLoop c opts opts.maxIters s).1.randCount + 1 } := by
  rw [DifferentialIk.outerLoop]
  exact if_neg (by simp [h])

/-- Once `q_cur` no longer aliases the caller's array, no inner-loop
iteration touches the array contents again. -/
theorem innerLoop_arr_of_not_aliased {n : ℕ} (c : IkContext n)
    (opts : DifferentialIkOptions) :
    ∀ (fuel : ℕ) (s : SolveState n), s.aliased = false →
      ((DifferentialIk.innerLoop c opts fuel s).1).arr = s.arr ∧
      ((DifferentialIk.innerLoop c opts fuel s).1).aliased = false := by
  intro fuel
  induction fuel with
  | zero =>
    intro s h
    exact ⟨rfl, h⟩
  | succ fuel ih =>
    intro s h
    obtain ⟨qc, ien, al, ar, st, rc⟩ := s
    replace h : al = false := h
    subst h
    rw [DifferentialIk.innerLoop]
    by_cases hconv : vnorm (errTrans (c.errAt
        ({ qCur := qc, initialErrorNorm := ien, aliased := false, arr := ar,
           steps := st, randCount := rc } : SolveState n).qCur)) <
          opts.maxTranslationError ∧
        vnorm (errRot (c.errAt
        ({ qCur := qc, initialErrorNorm := ien, aliased := false, arr := ar,
           steps := st, randCount := rc } : SolveState n).qCur)) <
          opts.maxRotationError
    · rw [if_pos hconv]
      exact ⟨rfl, rfl⟩
    · rw [if_neg hconv]
      exact ih _ rfl

/-- Once the alias to the caller's array is broken, the retry loop never
changes the array contents either. -/
theorem outerLoop_arr_of_not_aliased {n : ℕ} (c : IkContext n)
    (opts : DifferentialIkOptions) :
    ∀ (fuel : ℕ) (s : SolveState n), s.aliased = false →
      ((DifferentialIk.outerLoop c opts fuel s).2).arr = s.arr := by
  intro fuel
  induction fuel with
  | zero =>
    intro s _
    rfl
  | succ fuel ih =>
    intro s h
    obtain ⟨ha, hb⟩ := innerLoop_arr_of_not_aliased c opts opts.maxIters s h
    cases hsv : (DifferentialIk.innerLoop c opts opts.maxIters s).2 with
    | true =>
      rw [outerLoop_succ_solved c opts fuel s hsv]
      exact ha
    | false =>
      rw [outerLoop_succ_failed c opts fuel s hsv, ih _ rfl]
      exact ha

/-- The state entering a retry attempt never aliases the caller's array, so
the array contents at the end of the run are the contents at the end of the
first attempt. -/
theorem outerLoop_retry_arr {n : ℕ} (c : IkContext n)
    (opts : DifferentialIkOptions) (fuel : ℕ) (s1 : SolveState n) :
    ((DifferentialIk.outerLoop c opts fuel
      { qCur := c.randomState s1.randCount,
        initialErrorNorm := s1.initialErrorNorm, aliased := false,
        arr := s1.arr, steps := s1.steps,
        randCount := s1.randCount + 1 }).2).arr = s1.arr :=
  outerLoop_arr_of_not_aliased c opts fuel _ rfl

/-- C6 amended: beyond progress reporting, `solve` can mutate the provided
`init_state` array in place, because the gradient-descent updates use
`q_cur += ...` while `q_cur` still aliases the caller's array; the array is
unchanged precisely when no step precedes the first rebinding of `q_cur` —
in particular, whenever the initial configuration already meets both error
tolerances, the array still holds `q` when `solve` returns. -/
theorem C6_init_state_amended {n : ℕ} (c : IkContext n)
    (opts : DifferentialIkOptions) (q : Config n)
    (hcond : vnorm (errTrans (c.errAt q)) < opts.maxTranslationError ∧
      vnorm (errRot (c.errAt q)) < opts.maxRotationError) :
    (DifferentialIk.solve c opts (some q)).2.arr = q := by
  classical
  set s0 : SolveState n :=
    { qCur := q, initialErrorNorm := none, aliased := true, arr := q,
      steps := 0, randCount := 0 } with hs0
  have hcond' : vnorm (errTrans (c.errAt s0.qCur)) < opts.maxTranslationError ∧
      vnorm (errRot (c.errAt s0.qCur)) < opts.maxRotationError := hcond
  show (DifferentialIk.outerLoop c opts (opts.maxRetries + 1) s0).2.arr = q
  cases hmi : opts.maxIters with
  | zero =>
    have hs : (DifferentialIk.innerLoop c opts opts.maxIters s0).2 = false := by
      rw [hmi, innerLoop_zero]
    rw [outerLoop_succ_failed c opts opts.maxRetries s0 hs, outerLoop_retry_arr,
      hmi, innerLoop_zero]
  | succ m =>
    have hpair := innerLoop_converged c opts m s0 hcond'
    cases hb : (if withinLimits c (fun i => wrapAngle (s0.qCur i)) then
        (match c.collision with
          | some inCollision => ! inCollision (fun i => wrapAngle (s0.qCur i))
          | none => true)
        else false) with
    | true =>
      have hs : (DifferentialIk.innerLoop c opts opts.maxIters s0).2 = true := by
        rw [hmi, hpair]
        exact hb
      rw [outerLoop_succ_solved c opts opts.maxRetries s0 hs, hmi, hpair]
    | false =>
      have hs : (DifferentialIk.innerLoop c opts opts.maxIters s0).2 = false := by
        rw [hmi, hpair]
        exact hb
      rw [outerLoop_succ_failed c opts opts.maxRetries s0 hs, outerLoop_retry_arr,
        hmi, hpair]

/-- Witness for the amended C6 theorem: a model with zero pose error at the
initial configuration, whose `init_state` array is untouched. -/
theorem C6_init_state_amended_witness :
    (vnorm (errTrans (c3ctx.errAt fun _ => 1 / 2)) <
        c3opts.maxTranslationError ∧
      vnorm (errRot (c3ctx.errAt fun _ => 1 / 2)) <
        c3opts.maxRotationError) ∧
    (DifferentialIk.solve c3ctx c3opts (some fun _ => 1 / 2)).2.arr =
      (fun _ => 1 / 2) :=
  have hc : vnorm (errTrans (c3ctx.errAt fun _ : Fin 1 => (1 / 2 : ℝ))) <
      c3opts.maxTranslationError ∧
      vnorm (errRot (c3ctx.errAt fun _ : Fin 1 => (1 / 2 : ℝ))) <
        c3opts.maxRotationError := by
    constructor <;>
      · show vnorm (0 : Fin 3 → ℝ) < (1 : ℝ)
        rw [vnorm_zero]
        norm_num
  ⟨hc, C6_init_state_amended c3ctx c3opts (fun _ => 1 / 2) hc⟩

/-- The constant pose-error vector `(4, 0, 0, 0, 0, 0)` of the C6
counterexample model. -/
noncomputable def c6err : Fin 6 → ℝ := fun i => if i.val = 0 then 4 else 0

/-- The constant frame Jacobian of the C6 counterexample model: a single
column with 1 in the first row. -/
noncomputable def c6J : Matrix (Fin 6) (Fin 1) ℝ :=
  Matrix.of fun i _ => if i.val = 0 then 1 else 0

/-- The solution of `jjt x = error` for the C6 counterexample. -/
noncomputable def c6x : Fin 6 → ℝ := fun i => if i.val = 0 then 2 else 0

/-- The 1-DOF context of the C6 counterexample: pose error constantly
`(4,0,0,0,0,0)` (far from tolerance), Jacobian `c6J`, wide limits, no
collision model. -/
noncomputable def c6ctx : IkContext 1 where
  lower := fun _ => -10
  upper := fun _ => 10
  errAt := fun _ => c6err
  jacAt := fun _ => c6J
  collision := none
  randomState := fun _ _ => 0
  nullspace := []

/-- Options for the C6 counterexample: one attempt of one iteration, unit
damping and a fixed unit step size. -/
def c6opts : DifferentialIkOptions where
  maxIters := 1
  maxRetries := 0
  maxTranslationError := 1
  maxRotationError := 1
  damping := 1
  minStepSize := 1
  maxStepSize := 1

theorem c6_dls_diag : dlsMatrix c6J 1 =
    Matrix.diagonal (fun i : Fin 6 => if i.val = 0 then 2 else 1) := by
  unfold dlsMatrix c6J
  ext i j
  simp only [Matrix.add_apply, Matrix.mul_apply, Matrix.smul_apply,
    Matrix.one_apply, Matrix.transpose_apply, Matrix.of_apply,
    Matrix.diagonal_apply, smul_eq_mul, Fin.sum_univ_one]
  fin_cases i <;> fin_cases j <;> norm_num [Fin.ext_iff]

theorem c6_det : (dlsMatrix c6J 1).det = 2 := by
  rw [c6_dls_diag, Matrix.det_diagonal]
  rw [Fin.prod_univ_six]
  norm_num [show ((0 : Fin 6) : ℕ) = 0 from rfl,
    show ((1 : Fin 6) : ℕ) = 1 from rfl, show ((2 : Fin 6) : ℕ) = 2 from rfl,
    show ((3 : Fin 6) : ℕ) = 3 from rfl, show ((4 : Fin 6) : ℕ) = 4 from rfl,
    show ((5 : Fin 6) : ℕ) = 5 from rfl]

theorem c6_mulvec : dlsMatrix c6J 1 *ᵥ c6x = c6err := by
  rw [c6_dls_diag]
  funext i
  rw [Matrix.mulVec_diagonal]
  unfold c6x c6err
  fin_cases i <;> norm_num

theorem c6_inv_mulvec : (dlsMatrix c6J 1)⁻¹ *ᵥ c6err = c6x := by
  have hu : IsUnit (dlsMatrix c6J 1).det := by
    rw [c6_det]
    exact isUnit_iff_ne_zero.mpr (by norm_num)
  calc (dlsMatrix c6J 1)⁻¹ *ᵥ c6err
      = (dlsMatrix c6J 1)⁻¹ *ᵥ (dlsMatrix c6J 1 *ᵥ c6x) := by rw [c6_mulvec]
    _ = ((dlsMatrix c6J 1)⁻¹ * dlsMatrix c6J 1) *ᵥ c6x := by
        rw [Matrix.mulVec_mulVec]
    _ = c6x := by rw [Matrix.nonsing_inv_mul _ hu, Matrix.one_mulVec]

theorem c6_jt : c6J.transpose *ᵥ c6x = (fun _ : Fin 1 => (2 : ℝ)) := by
  funext j
  show ∑ i : Fin 6, c6J.transpose j i * c6x i = 2
  unfold c6J c6x
  rw [Fin.sum_univ_six]
  norm_num [show ((0 : Fin 6) : ℕ) = 0 from rfl,
    show ((1 : Fin 6) : ℕ) = 1 from rfl, show ((2 : Fin 6) : ℕ) = 2 from rfl,
    show ((3 : Fin 6) : ℕ) = 3 from rfl, show ((4 : Fin 6) : ℕ) = 4 from rfl,
    show ((5 : Fin 6) : ℕ) = 5 from rfl]

theorem c6_ikStep (a b : ℝ) (q : Config 1) :
    ikStep c6J 1 (alphaStep 1 1 a b) c6err [] q = (fun _ => (2 : ℝ)) := by
  have halpha : alphaStep 1 1 a b = 1 := by
    unfold alphaStep
    ring
  rw [ikStep]
  simp only [List.isEmpty_nil, ite_true]
  rw [halpha, c6_inv_mulvec, c6_jt]
  funext i
  simp

theorem c6_vnorm_errTrans : vnorm (errTrans c6err) = 4 := by
  unfold vnorm
  have hsum : ∑ i : Fin 3, errTrans c6err i ^ 2 = 16 := by
    rw [Fin.sum_univ_three]
    show c6err (Fin.castAdd 3 0) ^ 2 + c6err (Fin.castAdd 3 1) ^ 2 +
      c6err (Fin.castAdd 3 2) ^ 2 = 16
    unfold c6err
    norm_num
  rw [hsum, show (16 : ℝ) = 4 ^ 2 by norm_num, Real.sqrt_sq (by norm_num)]

/-- C6 counterexample: `solve` mutates the caller's `init_state` array.  On
the 1-DOF model `c6ctx` with initial array `[0.0]`, the single
damped-least-squares step executes `q_cur += 2.0` while `q_cur` still
aliases the array, so after `solve` returns (with `None`) the caller's array
holds `[2.0]`, not its original contents. -/
theorem C6_init_state_mutation_counterexample :
    (DifferentialIk.solve c6ctx c6opts (some fun _ => 0)).2.arr =
      (fun _ : Fin 1 => (2 : ℝ)) ∧
    (DifferentialIk.solve c6ctx c6opts (some fun _ => 0)).2.arr ≠
      (fun _ : Fin 1 => (0 : ℝ)) := by
  classical
  set s0 : SolveState 1 :=
    { qCur := fun _ => 0, initialErrorNorm := none, aliased := true,
      arr := fun _ => 0, steps := 0, randCount := 0 } with hs0
  have hnc : ¬(vnorm (errTrans (c6ctx.errAt s0.qCur)) <
      c6opts.maxTranslationError ∧
      vnorm (errRot (c6ctx.errAt s0.qCur)) < c6opts.maxRotationError) := by
    intro h
    have h1 : vnorm (errTrans c6err) < (1 : ℝ) := h.1
    rw [c6_vnorm_errTrans] at h1
    norm_num at h1
  have hinner := innerLoop_notConverged c6ctx c6opts 0 s0 hnc
  rw [innerLoop_zero] at hinner
  have hs : (DifferentialIk.innerLoop c6ctx c6opts c6opts.maxIters s0).2 =
      false := by
    rw [show c6opts.maxIters = 0 + 1 from rfl, hinner]
  have heval : (DifferentialIk.solve c6ctx c6opts (some fun _ => 0)).2.arr =
      (fun _ : Fin 1 => (2 : ℝ)) := by
    show (DifferentialIk.outerLoop c6ctx c6opts
      (c6opts.maxRetries + 1) s0).2.arr = _
    rw [outerLoop_succ_failed c6ctx c6opts c6opts.maxRetries s0 hs,
      outerLoop_retry_arr, show c6opts.maxIters = 0 + 1 from rfl, hinner]
    show s0.qCur + ikStep c6J 1
        (alphaStep 1 1 (vnorm c6err) (vnorm c6err)) c6err [] s0.qCur =
      (fun _ : Fin 1 => (2 : ℝ))
    rw [c6_ikStep]
    funext i
    show (0 : ℝ) + 2 = 2
    norm_num
  exact ⟨heval, by
    rw [heval]
    intro h
    have := congrFun h 0
    norm_num at this⟩

end PyRoboPlan
